import Mathlib

/-!
Verification of the core components of the cryptofiend exchange-aggregation
library: symbol codec, rate-limited dispatcher, order-book store, and order
normalizer, as implemented by the exchange adapters in the repository
(binance, bitfinex, bittrex, liqui, poloniex packages).

Conventions of the embedding:
* Go `float64` amount/price fields only ever flow through exact decimal
  arithmetic (shopspring/decimal subtraction) and order comparisons in the
  code under study, so they are embedded as rationals (`ℚ`).
* Go `int64` timestamps are embedded as `Int`; Go machine-integer division
  on non-negative timestamps agrees with `Int` division as used here.
* Go maps are embedded as functions into `Option`; a read of a missing key
  that Go would answer with a zero value is made explicit with `getD`.
* Go string enums (`exchange.OrderStatus`, `exchange.OrderSide`) are
  embedded as `String`, keeping the Go zero value `""` observable.
-/

namespace Cryptofiend

/-! ### Strings

Helper functions mirroring the Go standard-library string operations used
by the code under study (all inputs in this domain are ASCII currency codes
and symbols, so byte-wise Go operations agree with character-wise ones). -/

/-- Character-wise uppercase, mirroring Go `strings.ToUpper` on ASCII. -/
def strUpper (s : String) : String :=
  String.mk (s.data.map Char.toUpper)

/-- Character-wise lowercase, mirroring Go `strings.ToLower` on ASCII. -/
def strLower (s : String) : String :=
  String.mk (s.data.map Char.toLower)

/-- Splits a character list at the first occurrence of the delimiter
character, returning the parts before and after it.  Mirrors taking the
first two fields of Go `strings.Split` when the delimiter occurs exactly
once (the delimiters in this repository are the single characters `-` and
`_`, which never occur inside a currency code). -/
def splitOnChar (d : Char) : List Char → List Char × List Char
  | [] => ([], [])
  | c :: rest =>
    if c = d then ([], rest)
    else
      let p := splitOnChar d rest
      (c :: p.1, p.2)

/-! ### Currency pairs

Modelled from the spec: the `currency/pair` package is not part of the
corpus; §3 of the spec defines CurrencyPair as an ordered (base, quote)
pair of currency codes, and §4.1 defines the codec operations (apply the
exchange delimiter and case convention, swap the components when the
mapping is inverted, split symbols back on the delimiter). -/

/-- Modelled from the spec: ordered (base, quote) currency pair
(`pair.CurrencyPair`, fields `FirstCurrency`/`SecondCurrency`). -/
structure CurrencyPair where
  firstCurrency : String
  secondCurrency : String
deriving DecidableEq, Repr

/-- Modelled from the spec: `pair.CurrencyPair.Display(delimiter, uppercase)`
joins the two codes with the exchange delimiter and applies the case
convention. -/
def CurrencyPair.display (p : CurrencyPair) (delimiter : String) (uppercase : Bool) : String :=
  let s := p.firstCurrency ++ delimiter ++ p.secondCurrency
  if uppercase then strUpper s else s

/-- Modelled from the spec: `pair.CurrencyPair.Invert` swaps base and quote
(used by exchanges whose market identifiers list the quote currency first). -/
def CurrencyPair.invert (p : CurrencyPair) : CurrencyPair :=
  ⟨p.secondCurrency, p.firstCurrency⟩

/-- Modelled from the spec: `pair.NewCurrencyPair(first, second)`. -/
def newCurrencyPair (first second : String) : CurrencyPair :=
  ⟨first, second⟩

/-- Modelled from the spec: `pair.NewCurrencyPairDelimiter(symbol, delimiter)`
splits the symbol on the delimiter into the two currency codes.  The
delimiter is a single character for every exchange in the corpus. -/
def newCurrencyPairDelimiter (s : String) (d : Char) : CurrencyPair :=
  ⟨String.mk (splitOnChar d s.data).1, String.mk (splitOnChar d s.data).2⟩

/-- Modelled from the spec: `pair.CurrencyPair.FormatPair(delimiter, uppercase)`
re-applies the case convention to the pair (the delimiter argument only
affects the displayed form, which the stored pair does not keep). -/
def CurrencyPair.formatPair (p : CurrencyPair) (_delimiter : String) (uppercase : Bool) :
    CurrencyPair :=
  if uppercase then ⟨strUpper p.firstCurrency, strUpper p.secondCurrency⟩ else p

/-- Modelled from the spec: `pair.CurrencyPair.Pair()` concatenates the two
codes without a delimiter. -/
def CurrencyPair.pairItem (p : CurrencyPair) : String :=
  p.firstCurrency ++ p.secondCurrency

/-! ### Symbol codecs of the exchange adapters (from the source)

Configured formats (from each adapter's `SetDefaults`):
poloniex delimiter `_` uppercase, bittrex delimiter `-` uppercase,
bitfinex and binance no delimiter, uppercase. -/

/-- Embeds `Poloniex.CurrencyPairToSymbol`: Poloniex symbols are inverted
currency pairs, displayed with delimiter `_`, uppercase. -/
def poloniexCurrencyPairToSymbol (cp : CurrencyPair) : String :=
  (cp.invert).display "_" true

/-- Embeds `Poloniex.SymbolToCurrencyPair`: split on `_` and invert back. -/
def poloniexSymbolToCurrencyPair (symbol : String) : CurrencyPair :=
  (newCurrencyPairDelimiter symbol '_').invert

/-- Embeds `Bittrex.CurrencyPairToSymbol`: Bittrex symbols are inverted
currency pairs, displayed with delimiter `-`, uppercase. -/
def bittrexCurrencyPairToSymbol (p : CurrencyPair) : String :=
  (p.invert).display "-" true

/-- Embeds `Bittrex.SymbolToCurrencyPair`: split on `-` and invert back. -/
def bittrexSymbolToCurrencyPair (symbol : String) : CurrencyPair :=
  (newCurrencyPairDelimiter symbol '-').invert

/-- Embeds `Bitfinex.CurrencyPairToSymbol`: no delimiter, uppercase. -/
def bitfinexCurrencyPairToSymbol (p : CurrencyPair) : String :=
  p.display "" true

/-- Embeds `Bitfinex.SymbolToCurrencyPair` (the fixed-width codec variant):
a symbol must be exactly 6 characters; it is sliced into a 3-character base
code and the remaining 3-character quote code, then the request format
(no delimiter, uppercase) is applied. -/
def bitfinexSymbolToCurrencyPair (symbol : String) : Except String CurrencyPair :=
  if symbol.data.length ≠ 6 then
    Except.error ("symbol " ++ symbol ++ " is longer than expected")
  else
    Except.ok ((newCurrencyPair (String.mk (symbol.data.take 3))
      (String.mk (symbol.data.drop 3))).formatPair "" true)

/-! ### Canonical order model

The `exchanges` package declaring `exchange.Order` and its status/side
constants is not part of the corpus (only `exchange_limits.go` is). -/

/-- Modelled from the spec: canonical order statuses (§3: one of
active, filled, aborted, unknown).  `exchange.OrderStatus` is a Go string
type, so the zero value `""` of an untouched status field stays observable. -/
def orderStatusActive : String := "active"

/-- Modelled from the spec: canonical status of a completely filled order. -/
def orderStatusFilled : String := "filled"

/-- Modelled from the spec: canonical status of a closed order that was not
completely filled. -/
def orderStatusAborted : String := "aborted"

/-- Modelled from the spec: canonical status for unrecognized raw statuses. -/
def orderStatusUnknown : String := "unknown"

/-- Modelled from the spec: canonical buy side (`exchange.OrderSideBuy`);
the binance normalizer produces it by lower-casing the raw side `BUY` and
the liqui normalizer passes the raw word through unchanged, so the
canonical value is the lowercase word. -/
def orderSideBuy : String := "buy"

/-- Modelled from the spec: canonical sell side (`exchange.OrderSideSell`). -/
def orderSideSell : String := "sell"

/-- Modelled from the spec: `exchange.OrderTypeExchangeLimit`, the canonical
tag for plain limit orders (its concrete string value is immaterial to the
claims; only that it is the value assigned for recognized limit orders). -/
def orderTypeExchangeLimit : String := "exchange limit"

/-- Modelled from the spec: the canonical order record
(`exchange.Order`, §3 CanonicalOrder): id, currency pair, side, status,
original amount, filled amount, remaining amount, limit rate, creation time
in seconds since epoch.  Fields the Go code never assigns keep their Go
zero values. -/
structure ExchOrder where
  orderID : String
  status : String
  side : String
  orderType : String
  amount : ℚ
  filledAmount : ℚ
  remainingAmount : ℚ
  rate : ℚ
  createdAt : Int
  currencyPair : CurrencyPair
deriving DecidableEq, Repr

/-- Go zero value of `exchange.Order` (`&exchange.Order{}`). -/
def exchOrderZero : ExchOrder :=
  ⟨"", "", "", "", 0, 0, 0, 0, 0, ⟨"", ""⟩⟩

/-! ### Bittrex order normalizer (from `bittrex.go`) -/

/-- Raw bittrex order payload; the fields are the ones
`Bittrex.convertOrderToExchangeOrder` reads (the struct declaration itself
sits in a file outside the corpus).  `closed` holds the close timestamp
string and is empty while the order is still open; `exchangeSymbol` is the
source field `Exchange`; `orderType` is the source field `Type`. -/
structure BittrexOrder where
  orderUUID : String
  closed : String
  quantity : ℚ
  quantityRemaining : ℚ
  pricePerUnit : ℚ
  limit : ℚ
  opened : String
  exchangeSymbol : String
  orderType : String
deriving DecidableEq, Repr

/-- Embeds `Bittrex.convertOrderToExchangeOrder`.  The `openedUnix`
parameter stands for the result of the standard-library call
`time.Parse(bittrexTimeFormat, order.Opened)` followed by `.Unix()`
(`none` when parsing fails, in which case the Go code only logs and leaves
`CreatedAt` at its zero value).  An unrecognized order type is only logged;
the side keeps the Go zero value `""`. -/
def bittrexConvertOrderToExchangeOrder (_orderID : String) (order : BittrexOrder)
    (openedUnix : Option Int) : ExchOrder :=
  let status :=
    if 0 < order.closed.length then
      if 0 < order.quantityRemaining then orderStatusAborted else orderStatusFilled
    else orderStatusActive
  { exchOrderZero with
    orderID := order.orderUUID
    status := status
    filledAmount := order.quantity - order.quantityRemaining
    remainingAmount := order.quantityRemaining
    amount := order.quantity
    rate := if 0 < order.pricePerUnit then order.pricePerUnit else order.limit
    createdAt := openedUnix.getD 0
    currencyPair := bittrexSymbolToCurrencyPair order.exchangeSymbol
    side :=
      if order.orderType = "LIMIT_BUY" then orderSideBuy
      else if order.orderType = "LIMIT_SELL" then orderSideSell
      else "" }

/-! ### Binance order normalizer (from `binance_wrapper.go` / `binance_types.go`) -/

/-- Raw binance order payload (`binance.Order` from `binance_types.go`,
restricted to the fields the normalizer reads).  `status`, `orderType` and
`side` are the raw Go string enums (`NEW`, `FILLED`, `CANCELED`, ...;
`LIMIT`/`MARKET`; `BUY`/`SELL`); `time` is in milliseconds. -/
structure BinanceOrder where
  symbol : String
  orderID : Int
  price : ℚ
  origQty : ℚ
  executedQty : ℚ
  status : String
  orderType : String
  side : String
  time : Int
  isWorking : Bool
deriving DecidableEq, Repr

/-- Embeds `Binance.convertOrderToExchangeOrder`.  The `symbolToPair`
parameter stands for `Binance.SymbolToCurrencyPair`, a table lookup over
the fetched market list whose definition sits outside the corpus; the Go
code discards its error with `_`.  The aborted branch covers the raw
statuses `CANCELED`, `EXPIRED`, `REJECTED` and `REPLACED` (the switch in
the source; `REPLACED` is declared with the other `OrderStatus` constants
in the part of `binance_types.go` outside the corpus).  An unexpected
order type is only logged; the canonical type keeps the Go zero value. -/
def binanceConvertOrderToExchangeOrder (order : BinanceOrder)
    (symbolToPair : String → CurrencyPair) : ExchOrder :=
  let status :=
    if order.status = "CANCELED" ∨ order.status = "EXPIRED" ∨
        order.status = "REJECTED" ∨ order.status = "REPLACED" then orderStatusAborted
    else if order.status = "FILLED" then orderStatusFilled
    else if order.isWorking then orderStatusActive
    else orderStatusUnknown
  { exchOrderZero with
    orderID := toString order.orderID
    status := status
    amount := order.origQty
    filledAmount := order.executedQty
    remainingAmount := order.origQty - order.executedQty
    rate := order.price
    createdAt := order.time / 1000
    currencyPair := symbolToPair order.symbol
    side := strLower order.side
    orderType := if order.orderType = "LIMIT" then orderTypeExchangeLimit else "" }

/-! ### Liqui order normalizer (from the liqui package, `part_002`) -/

/-- Raw liqui order payload (`liqui.OrderInfo`, restricted to the fields
the normalizer reads).  `status` is the numeric liqui status (0 active,
1 executed, 2 canceled, 3 canceled after partial execution); `orderType`
is the source field `Type` holding the word `buy` or `sell`; `amount` is
the remaining amount and `startAmount` the original amount (zero for
orders coming from the active-orders listing, which omits it). -/
structure LiquiOrderInfo where
  pairSymbol : String
  orderType : String
  amount : ℚ
  startAmount : ℚ
  rate : ℚ
  timestampCreated : Int
  status : Int
deriving DecidableEq, Repr

/-- Embeds `Liqui.convertOrderToExchangeOrder` (the liqui adapter version
in `part_002`).  A status outside 0..3 falls through the switch and leaves
the canonical status at the Go zero value `""`; the raw side word is passed
through unchanged. -/
def liquiConvertOrderToExchangeOrder (orderID : String) (order : LiquiOrderInfo) : ExchOrder :=
  let status :=
    if order.status = 0 then orderStatusActive
    else if order.status = 1 then orderStatusFilled
    else if order.status = 2 ∨ order.status = 3 then orderStatusAborted
    else ""
  let base :=
    { exchOrderZero with
      orderID := orderID
      status := status
      rate := order.rate
      createdAt := order.timestampCreated
      currencyPair := newCurrencyPairDelimiter order.pairSymbol '_'
      side := order.orderType }
  if order.startAmount ≠ 0 then
    { base with
      amount := order.startAmount
      filledAmount := order.startAmount - order.amount
      remainingAmount := order.amount }
  else
    { base with amount := order.amount }

/-! ### Order-book store (from `exchanges/orderbook/orderbook.go`)

The store is guarded by one mutex per instance; the embedding states the
sequential behavior of each critical section (every operation is one
critical section, so sequential state passing captures the Go behavior). -/

/-- Orderbook entry: amount and price (`orderbook.Item`). -/
structure OBItem where
  amount : ℚ
  price : ℚ
deriving DecidableEq, Repr

/-- Orderbook snapshot (`orderbook.Base`): the pair, its display string,
bids, asks and the last-updated timestamp (embedded as Unix time). -/
structure OBBase where
  obPair : CurrencyPair
  currencyPairStr : String
  bids : List OBItem
  asks : List OBItem
  lastUpdated : Int
deriving DecidableEq, Repr

/-- Go zero value of `orderbook.Base` (what indexing a map without the key
yields). -/
def obBaseZero : OBBase :=
  ⟨⟨"", ""⟩, "", [], [], 0⟩

/-- Functional update of a one-level string-keyed Go map. -/
def mapUpd {β : Type} (m : String → Option β) (k : String) (v : β) : String → Option β :=
  fun x => if x = k then some v else m x

/-- The order-book store (`orderbook.Orderbooks`): two currency levels,
then the market-type tag (`orderbookType`), yielding a snapshot. -/
structure Orderbooks where
  orderbooks : String → Option (String → Option (String → Option OBBase))

/-- Embeds `orderbook.Init`. -/
def orderbooksInit : Orderbooks :=
  ⟨fun _ => none⟩

/-- Embeds `Orderbooks.FirstCurrencyExists`. -/
def Orderbooks.firstCurrencyExists (o : Orderbooks) (currency : String) : Bool :=
  (o.orderbooks currency).isSome

/-- Embeds `Orderbooks.SecondCurrencyExists`. -/
def Orderbooks.secondCurrencyExists (o : Orderbooks) (p : CurrencyPair) : Bool :=
  match o.orderbooks p.firstCurrency with
  | some m => (m p.secondCurrency).isSome
  | none => false

/-- Error string `ErrPrimaryCurrencyNotFound`. -/
def errPrimaryCurrencyNotFound : String :=
  "Error primary currency for orderbook not found."

/-- Error string built for a secondary-currency miss. -/
def errSecondaryCurrencyNotFound (p : CurrencyPair) : String :=
  "Error secondary currency for orderbook not found." ++ "-" ++
    p.firstCurrency ++ "-" ++ p.secondCurrency

/-- Embeds `Orderbooks.GetOrderbook`: the two currency levels are checked
and answered with errors, then the market-type level is read by plain map
indexing, which yields the Go zero value `Base{}` when the type key is
missing. -/
def Orderbooks.getOrderbook (o : Orderbooks) (p : CurrencyPair) (orderbookType : String) :
    Except String OBBase :=
  if ¬ o.firstCurrencyExists p.firstCurrency then
    Except.error errPrimaryCurrencyNotFound
  else if ¬ o.secondCurrencyExists p then
    Except.error (errSecondaryCurrencyNotFound p)
  else
    Except.ok ((((o.orderbooks p.firstCurrency).getD (fun _ => none) p.secondCurrency).getD
      (fun _ => none) orderbookType).getD obBaseZero)

/-- Embeds `Orderbooks.ProcessOrderbook`.  The `now` parameter stands for
`time.Now()`.  The incoming snapshot's `CurrencyPair` string and
`LastUpdated` fields are overwritten, then the snapshot replaces whatever
was stored under (first, second, type), creating the inner maps as
needed. -/
def Orderbooks.processOrderbook (o : Orderbooks) (p : CurrencyPair) (orderbookNew : OBBase)
    (orderbookType : String) (now : Int) : Orderbooks :=
  let ob := { orderbookNew with currencyPairStr := p.pairItem, lastUpdated := now }
  match o.orderbooks p.firstCurrency with
  | some m =>
    match m p.secondCurrency with
    | some mt =>
      ⟨mapUpd o.orderbooks p.firstCurrency
        (mapUpd m p.secondCurrency (mapUpd mt orderbookType ob))⟩
    | none =>
      ⟨mapUpd o.orderbooks p.firstCurrency
        (mapUpd m p.secondCurrency (mapUpd (fun _ => none) orderbookType ob))⟩
  | none =>
    ⟨mapUpd o.orderbooks p.firstCurrency
      (mapUpd (fun _ => none) p.secondCurrency (mapUpd (fun _ => none) orderbookType ob))⟩

/-! ### Rate-limited dispatchers

Two dispatcher generations coexist in the corpus:
* a count-per-window variant (`Binance.SendRateLimitedHTTPRequest` in
  `binance.go`, and the identical `Bitfinex.SendRateLimitedHTTPRequest` in
  `bitfinex/bitfinex.go`): at most `requestsPerMin` performed calls per
  window, where a window is reset once more than 90 seconds old; a skipped
  call sets the caller's result to the default value and returns a nil
  error;
* a delay-and-ban variant (the bitfinex adapter revision embedded at the
  end of `binance.go`): a minimum inter-call delay of `60000/q` ms per
  endpoint key, a 60-second global ban after the provider's throttle
  signal (`ERR_RATE_LIMIT` token or HTTP 429, detected by
  `SendAuthenticatedHTTPRequest`), and a skipped call sets the result to
  the default value and returns `exchange.WarningHTTPRequestRateLimited`.

The network call itself is a parameter: `CallOutcome` is what the
authenticated HTTP request would produce were it performed. -/

/-- Outcome the authenticated HTTP request would have if performed:
a decoded value, the provider throttle signal (`errRateLimit`, produced
for the `ERR_RATE_LIMIT` token or HTTP status 429), or any other error. -/
inductive CallOutcome (V : Type) where
  | success (v : V)
  | rateLimitError
  | otherError (msg : String)
deriving DecidableEq, Repr

/-- What a delay-and-ban dispatch returns to its caller: `fresh` is a
performed call's decoded value with a nil error; `fallback` is the
caller-supplied default value together with the soft
`WarningHTTPRequestRateLimited` signal; `failure` is a propagated hard
error (the result object is left untouched). -/
inductive DispatchResult (V : Type) where
  | fresh (v : V)
  | fallback (v : V)
  | failure (msg : String)
deriving DecidableEq, Repr

/-- Rate-limit bookkeeping of the delay-and-ban bitfinex adapter revision:
per method+path timestamp (ms) of the last successful request (a Go map
whose missing keys read as 0), and the global ban start timestamp. -/
structure BitfinexState where
  rateLimits : String → Int
  ipBanStartTime : Int

/-- Initial bitfinex dispatcher state (`SetDefaults`). -/
def bitfinexStateInit : BitfinexState :=
  ⟨fun _ => 0, 0⟩

/-- Result of one delay-and-ban dispatch: the successor state, the value
returned to the caller, and whether the network call was performed. -/
structure BitfinexDispatchStep (V : Type) where
  state : BitfinexState
  result : DispatchResult V
  performedCall : Bool

/-- Embeds the delay-and-ban `Bitfinex.SendRateLimitedHTTPRequest`
(the revision embedded in `binance.go`): `now` is the current time in
milliseconds; the minimum delay is `(60 * 1000) / requestsPerMin` (Go
unsigned integer division); a request is skipped while a ban started less
than 60 seconds ago or the last successful request on the key is younger
than the delay.  A performed call that hits the provider throttle signal
starts a ban at `now` and itself falls through to the skip branch
(default value, `RateLimited` warning); any other error propagates
untouched; success clears the ban and records the timestamp. -/
def bitfinexSendRateLimitedHTTPRequest {V : Type} (s : BitfinexState) (requestsPerMin : Nat)
    (key : String) (now : Int) (call : CallOutcome V) (defaultValue : V) :
    BitfinexDispatchStep V :=
  let requestDelay : Int := ((60 * 1000) / requestsPerMin : Nat)
  let lastRequestTime := s.rateLimits key
  if (s.ipBanStartTime ≠ 0 ∧ now - s.ipBanStartTime < 60 * 1000) ∨
      now - lastRequestTime < requestDelay then
    ⟨s, DispatchResult.fallback defaultValue, false⟩
  else
    match call with
    | CallOutcome.rateLimitError =>
      ⟨⟨s.rateLimits, now⟩, DispatchResult.fallback defaultValue, true⟩
    | CallOutcome.otherError msg =>
      ⟨s, DispatchResult.failure msg, true⟩
    | CallOutcome.success v =>
      ⟨⟨fun k => if k = key then now else s.rateLimits k, 0⟩, DispatchResult.fresh v, true⟩

/-- Runs a sequence of dispatches on one endpoint key, threading the state;
returns the final state and the per-call (result, performedCall) pairs. -/
def runBitfinexDispatches {V : Type} (s : BitfinexState) (requestsPerMin : Nat) (key : String)
    (defaultValue : V) : List (Int × CallOutcome V) → BitfinexState × List (DispatchResult V × Bool)
  | [] => (s, [])
  | (t, c) :: rest =>
    let step := bitfinexSendRateLimitedHTTPRequest s requestsPerMin key t c defaultValue
    let r := runBitfinexDispatches step.state requestsPerMin key defaultValue rest
    (r.1, (step.result, step.performedCall) :: r.2)

/-- Per-key window bookkeeping of the count-based dispatchers
(`rateLimitInfo`): window start time (seconds) and number of requests
admitted in the window. -/
structure RateLimitInfo where
  startTime : Int
  requestCount : Nat
deriving DecidableEq, Repr

/-- State of the count-based dispatchers: the method+path keyed map of
window entries (missing keys are nil pointers in Go, inserted on first
use). -/
structure BinanceState where
  rateLimits : String → Option RateLimitInfo

/-- Initial count-based dispatcher state (`SetDefaults`). -/
def binanceStateInit : BinanceState :=
  ⟨fun _ => none⟩

/-- What a count-based dispatch returns: `fresh` is a performed call's
value; `defaultNoError` is the caller-supplied default value returned with
a nil error (no rate-limited signal of any kind); `failure` propagates a
performed call's error. -/
inductive BinanceDispatchResult (V : Type) where
  | fresh (v : V)
  | defaultNoError (v : V)
  | failure (msg : String)
deriving DecidableEq, Repr

/-- Result of one count-based dispatch. -/
structure BinanceDispatchStep (V : Type) where
  state : BinanceState
  result : BinanceDispatchResult V
  performedCall : Bool

/-- Embeds the count-based `Binance.SendRateLimitedHTTPRequest` (the
identical `Bitfinex.SendRateLimitedHTTPRequest` in `bitfinex/bitfinex.go`
differs only in the authenticated request it wraps): `nowSec` is the
current Unix time in seconds.  The window entry is reset when unset or
more than 90 seconds old; while fewer than `requestsPerMin` requests have
been counted the request is performed (the count is incremented whether or
not the call then fails); otherwise the caller's result is set to the
default value and a nil error is returned.  The underlying authenticated
request either yields a value or an error, so the call outcome is an
`Except`. -/
def binanceSendRateLimitedHTTPRequest {V : Type} (s : BinanceState) (requestsPerMin : Nat)
    (key : String) (nowSec : Int) (call : Except String V) (defaultValue : V) :
    BinanceDispatchStep V :=
  let rl0 := (s.rateLimits key).getD ⟨0, 0⟩
  let rl1 := if rl0.startTime = 0 ∨ 90 < nowSec - rl0.startTime then
    (⟨nowSec, 0⟩ : RateLimitInfo) else rl0
  if rl1.requestCount < requestsPerMin then
    let s' : BinanceState := ⟨mapUpd s.rateLimits key ⟨rl1.startTime, rl1.requestCount + 1⟩⟩
    match call with
    | Except.ok v => ⟨s', BinanceDispatchResult.fresh v, true⟩
    | Except.error msg => ⟨s', BinanceDispatchResult.failure msg, true⟩
  else
    ⟨⟨mapUpd s.rateLimits key rl1⟩, BinanceDispatchResult.defaultNoError defaultValue, false⟩

/-! ### Poloniex order cancellation (from `poloniex.go`) -/

/-- Decimal value of a digit list, most significant first. -/
def decimalValue (l : List Char) : Nat :=
  l.foldl (fun acc c => acc * 10 + (c.toNat - 48)) 0

/-- Consumes an optional leading sign, returning whether the number is
negative and the remaining characters. -/
def stripSign (l : List Char) : Bool × List Char :=
  match l with
  | [] => (false, [])
  | c :: rest =>
    if c = '-' then (true, rest)
    else if c = '+' then (false, rest)
    else (false, c :: rest)

/-- Clamps a parsed value to the int64 range, reporting a range error as
Go `strconv.ParseInt` does (the clamped extreme is still returned). -/
def parseClamp (v : Int) : Int × Bool :=
  if v < -(2 ^ 63) then (-(2 ^ 63), false)
  else if 2 ^ 63 - 1 < v then (2 ^ 63 - 1, false)
  else (v, true)

/-- Modelled from the Go standard-library contract of
`strconv.ParseInt(s, 10, 64)` (the `strconv` package is outside the
corpus): an optional sign followed by decimal digits; returns the value
and whether parsing succeeded.  On a syntax error Go returns 0, on a range
error the clamped extreme of int64. -/
def parseInt64 (s : String) : Int × Bool :=
  if (stripSign s.data).2 = [] ∨ ¬ (stripSign s.data).2.all Char.isDigit then (0, false)
  else
    parseClamp (if (stripSign s.data).1 then -(decimalValue (stripSign s.data).2 : Int)
      else (decimalValue (stripSign s.data).2 : Int))

/-- Observable action of `Poloniex.CancelOrder`: either it returns a nil
error without any network interaction, or it reaches the underlying
`Poloniex.cancelOrder`, sending a cancel request for the given numeric
order id. -/
inductive CancelAction where
  | returnedNil
  | sentCancelRequest (orderID : Int)
deriving DecidableEq, Repr

/-- Embeds `Poloniex.CancelOrder`: the order-id string is parsed with
`strconv.ParseInt`; when parsing succeeds (`err == nil`) the nil error is
returned immediately, and only when parsing fails does execution reach
`p.cancelOrder` with whatever value the failed parse produced. -/
def poloniexCancelOrder (orderstr : String) : CancelAction :=
  if (parseInt64 orderstr).2 then CancelAction.returnedNil
  else CancelAction.sentCancelRequest (parseInt64 orderstr).1

/-! ### Helper lemmas for the symbol codec -/

theorem strUpper_data (s : String) : (strUpper s).data = s.data.map Char.toUpper := rfl

theorem data_append (s t : String) : (s ++ t).data = s.data ++ t.data :=
  String.data_append s t

theorem strUpper_append (s t : String) : strUpper (s ++ t) = strUpper s ++ strUpper t := by
  apply String.ext
  simp [strUpper, data_append]

theorem mk_data (s : String) : String.mk s.data = s := rfl

theorem splitOnChar_append (d : Char) (b q : List Char) (h : d ∉ b) :
    splitOnChar d (b ++ d :: q) = (b, q) := by
  induction b with
  | nil => simp [splitOnChar]
  | cons c rest ih =>
    have hcd : c ≠ d := fun e => h (e ▸ List.mem_cons_self c rest)
    have hrest : d ∉ rest := fun hm => h (List.mem_cons_of_mem c hm)
    simp [splitOnChar, hcd, ih hrest]

/-- Round trip of the delimiter-based inverted codec shape shared by the
poloniex and bittrex adapters, for any single-character delimiter that is
unaffected by upper-casing and occurs in neither currency code. -/
theorem roundtrip_inverted_delim (d : Char) (ds : String) (hds : ds.data = [d])
    (hdu : d.toUpper = d) (p : CurrencyPair)
    (h1 : strUpper p.firstCurrency = p.firstCurrency)
    (h2 : strUpper p.secondCurrency = p.secondCurrency)
    (h3 : d ∉ p.secondCurrency.data) :
    (newCurrencyPairDelimiter ((p.invert).display ds true) d).invert = p := by
  have hsym : ((p.invert).display ds true).data =
      p.secondCurrency.data ++ d :: p.firstCurrency.data := by
    simp only [CurrencyPair.display, CurrencyPair.invert, if_pos, strUpper_data,
      data_append, hds, List.map_append]
    have e2 : p.secondCurrency.data.map Char.toUpper = p.secondCurrency.data :=
      congrArg String.data h2
    have e1 : p.firstCurrency.data.map Char.toUpper = p.firstCurrency.data :=
      congrArg String.data h1
    simp [e1, e2, hdu]
  have key : splitOnChar d ((p.invert).display ds true).data =
      (p.secondCurrency.data, p.firstCurrency.data) := by
    rw [hsym]
    exact splitOnChar_append d _ _ h3
  show (CurrencyPair.mk (String.mk (splitOnChar d ((p.invert).display ds true).data).1)
      (String.mk (splitOnChar d ((p.invert).display ds true).data).2)).invert = p
  rw [key]
  rfl

theorem underscore_not_upper : ('_').toUpper = '_' := by decide

theorem dash_not_upper : ('-').toUpper = '-' := by decide

/-- Round trip of the fixed-width bitfinex codec for pairs of two
3-character uppercase codes. -/
theorem roundtrip_bitfinex (p : CurrencyPair)
    (h1 : strUpper p.firstCurrency = p.firstCurrency)
    (h2 : strUpper p.secondCurrency = p.secondCurrency)
    (hl1 : p.firstCurrency.data.length = 3)
    (hl2 : p.secondCurrency.data.length = 3) :
    bitfinexSymbolToCurrencyPair (bitfinexCurrencyPairToSymbol p) = Except.ok p := by
  have hsym : (bitfinexCurrencyPairToSymbol p).data =
      p.firstCurrency.data ++ p.secondCurrency.data := by
    simp only [bitfinexCurrencyPairToSymbol, CurrencyPair.display, if_pos, strUpper_data,
      data_append, List.map_append]
    have e1 : p.firstCurrency.data.map Char.toUpper = p.firstCurrency.data :=
      congrArg String.data h1
    have e2 : p.secondCurrency.data.map Char.toUpper = p.secondCurrency.data :=
      congrArg String.data h2
    simp [e1, e2]
  have hlen : (bitfinexCurrencyPairToSymbol p).data.length = 6 := by
    simp [hsym, hl1, hl2]
  have htake : (bitfinexCurrencyPairToSymbol p).data.take 3 = p.firstCurrency.data := by
    rw [hsym, ← hl1, List.take_left]
  have hdrop : (bitfinexCurrencyPairToSymbol p).data.drop 3 = p.secondCurrency.data := by
    rw [hsym, ← hl1, List.drop_left]
  unfold bitfinexSymbolToCurrencyPair
  rw [if_neg (by rw [hlen]; exact fun h => h rfl)]
  rw [htake, hdrop]
  show Except.ok ((newCurrencyPair (String.mk p.firstCurrency.data)
    (String.mk p.secondCurrency.data)).formatPair "" true) = Except.ok p
  simp only [newCurrencyPair, CurrencyPair.formatPair, if_pos, mk_data]
  rw [h1, h2]

/-! ### Claim theorems for the symbol codec -/

/-- C9: the fixed-width codec variant (`Bitfinex.SymbolToCurrencyPair`)
fails with the invalid-symbol-format error for every input whose length is
not the expected fixed width 6, and for every 6-character symbol returns
the pair sliced at the currency-code length: first 3 characters as base,
rest as quote (put through the adapter's uppercase format convention). -/
theorem bitfinex_fixed_width_codec (s : String) :
    (s.data.length ≠ 6 →
      bitfinexSymbolToCurrencyPair s =
        Except.error ("symbol " ++ s ++ " is longer than expected")) ∧
    (s.data.length = 6 →
      bitfinexSymbolToCurrencyPair s =
        Except.ok ⟨strUpper (String.mk (s.data.take 3)), strUpper (String.mk (s.data.drop 3))⟩) := by
  constructor
  · intro h
    unfold bitfinexSymbolToCurrencyPair
    rw [if_pos h]
  · intro h
    unfold bitfinexSymbolToCurrencyPair
    rw [if_neg (by rw [h]; exact fun hc => hc rfl)]
    simp [newCurrencyPair, CurrencyPair.formatPair, strUpper]

/-- Witness for C9: the 6-character symbol `btcusd` decodes to (BTC, USD),
and the 7-character symbol `dashbtc` is rejected. -/
theorem bitfinex_fixed_width_codec_witness :
    bitfinexSymbolToCurrencyPair "btcusd" =
      Except.ok ⟨strUpper (String.mk ("btcusd".data.take 3)),
        strUpper (String.mk ("btcusd".data.drop 3))⟩ ∧
    bitfinexSymbolToCurrencyPair "dashbtc" =
      Except.error ("symbol " ++ "dashbtc" ++ " is longer than expected") :=
  ⟨(bitfinex_fixed_width_codec "btcusd").2 (by decide),
   (bitfinex_fixed_width_codec "dashbtc").1 (by decide)⟩

/-- C3: for every symbol-mapping variant in the corpus and every valid
currency pair known to it (uppercase codes free of the delimiter, of the
fixed width where the variant requires one), converting the pair to the
exchange symbol and back yields the original pair: the poloniex variant
(inverted, delimiter `_`), the bittrex variant (inverted, delimiter `-`)
and the bitfinex fixed-width variant (6 characters, no delimiter). -/
theorem symbol_roundtrip :
    (∀ p : CurrencyPair, strUpper p.firstCurrency = p.firstCurrency →
      strUpper p.secondCurrency = p.secondCurrency →
      '_' ∉ p.firstCurrency.data → '_' ∉ p.secondCurrency.data →
      poloniexSymbolToCurrencyPair (poloniexCurrencyPairToSymbol p) = p) ∧
    (∀ p : CurrencyPair, strUpper p.firstCurrency = p.firstCurrency →
      strUpper p.secondCurrency = p.secondCurrency →
      '-' ∉ p.firstCurrency.data → '-' ∉ p.secondCurrency.data →
      bittrexSymbolToCurrencyPair (bittrexCurrencyPairToSymbol p) = p) ∧
    (∀ p : CurrencyPair, strUpper p.firstCurrency = p.firstCurrency →
      strUpper p.secondCurrency = p.secondCurrency →
      p.firstCurrency.data.length = 3 → p.secondCurrency.data.length = 3 →
      bitfinexSymbolToCurrencyPair (bitfinexCurrencyPairToSymbol p) = Except.ok p) := by
  refine ⟨fun p h1 h2 _ h3 => ?_, fun p h1 h2 _ h3 => ?_, fun p h1 h2 hl1 hl2 => ?_⟩
  · exact roundtrip_inverted_delim '_' "_" rfl underscore_not_upper p h1 h2 h3
  · exact roundtrip_inverted_delim '-' "-" rfl dash_not_upper p h1 h2 h3
  · exact roundtrip_bitfinex p h1 h2 hl1 hl2

/-- Witness for C3: concrete round trips through all three variants. -/
theorem symbol_roundtrip_witness :
    poloniexSymbolToCurrencyPair (poloniexCurrencyPairToSymbol ⟨"ETH", "BTC"⟩) = ⟨"ETH", "BTC"⟩ ∧
    bittrexSymbolToCurrencyPair (bittrexCurrencyPairToSymbol ⟨"ETH", "BTC"⟩) = ⟨"ETH", "BTC"⟩ ∧
    bitfinexSymbolToCurrencyPair (bitfinexCurrencyPairToSymbol ⟨"BTC", "USD"⟩) =
      Except.ok ⟨"BTC", "USD"⟩ :=
  ⟨symbol_roundtrip.1 ⟨"ETH", "BTC"⟩ (by decide) (by decide) (by decide) (by decide),
   symbol_roundtrip.2.1 ⟨"ETH", "BTC"⟩ (by decide) (by decide) (by decide) (by decide),
   symbol_roundtrip.2.2 ⟨"BTC", "USD"⟩ (by decide) (by decide) (by decide) (by decide)⟩

/-- C4: every inverted mapping encodes the quote currency first and the
base currency second — the symbol of (base, quote) is
`QUOTE delimiter BASE` — and decoding that symbol swaps the order back.
In particular with delimiter `-`, uppercase, inverted (the bittrex
mapping) the pair (ETH, BTC) becomes `BTC-ETH`, which decodes back to
(ETH, BTC). -/
theorem inverted_mapping_order :
    (∀ p : CurrencyPair, bittrexCurrencyPairToSymbol p =
      strUpper p.secondCurrency ++ "-" ++ strUpper p.firstCurrency) ∧
    (∀ p : CurrencyPair, poloniexCurrencyPairToSymbol p =
      strUpper p.secondCurrency ++ "_" ++ strUpper p.firstCurrency) ∧
    bittrexCurrencyPairToSymbol ⟨"ETH", "BTC"⟩ = "BTC-ETH" ∧
    bittrexSymbolToCurrencyPair "BTC-ETH" = ⟨"ETH", "BTC"⟩ ∧
    (∀ p : CurrencyPair, strUpper p.firstCurrency = p.firstCurrency →
      strUpper p.secondCurrency = p.secondCurrency →
      '-' ∉ p.firstCurrency.data → '-' ∉ p.secondCurrency.data →
      bittrexSymbolToCurrencyPair (bittrexCurrencyPairToSymbol p) = p) := by
  refine ⟨fun p => ?_, fun p => ?_, by decide, by decide, fun p h1 h2 _ h3 => ?_⟩
  · show strUpper (p.secondCurrency ++ "-" ++ p.firstCurrency) = _
    rw [strUpper_append, strUpper_append]
    rfl
  · show strUpper (p.secondCurrency ++ "_" ++ p.firstCurrency) = _
    rw [strUpper_append, strUpper_append]
    rfl
  · exact roundtrip_inverted_delim '-' "-" rfl dash_not_upper p h1 h2 h3

/-- Witness for C4: the universally quantified conjuncts applied at the
end-to-end scenario pair (ETH, BTC). -/
theorem inverted_mapping_order_witness :
    bittrexCurrencyPairToSymbol ⟨"ETH", "BTC"⟩ =
      strUpper "BTC" ++ "-" ++ strUpper "ETH" ∧
    bittrexSymbolToCurrencyPair (bittrexCurrencyPairToSymbol ⟨"ETH", "BTC"⟩) = ⟨"ETH", "BTC"⟩ :=
  ⟨inverted_mapping_order.1 ⟨"ETH", "BTC"⟩,
   inverted_mapping_order.2.2.2.2 ⟨"ETH", "BTC"⟩ (by decide) (by decide) (by decide) (by decide)⟩

/-! ### Claim theorems for the order normalizer -/

/-- Concrete binance order for the C5 counterexample: canceled after being
completely filled, so its raw status is a closed status and its remaining
amount is zero. -/
def binanceCanceledFilledOrder : BinanceOrder :=
  ⟨"ETHBTC", 7, 1, 1, 1, "CANCELED", "LIMIT", "BUY", 5000, false⟩

/-- Counterexample to C5 as stated: the binance normalizer maps the closed
raw status `CANCELED` to `aborted` even though the remaining amount of the
order is zero, where the claim demands `filled` for every closed raw
status with zero remaining amount. -/
theorem binance_closed_status_counterexample :
    (binanceConvertOrderToExchangeOrder binanceCanceledFilledOrder
      (fun _ => ⟨"ETH", "BTC"⟩)).remainingAmount = 0 ∧
    (binanceConvertOrderToExchangeOrder binanceCanceledFilledOrder
      (fun _ => ⟨"ETH", "BTC"⟩)).status = orderStatusAborted ∧
    orderStatusAborted ≠ orderStatusFilled := by
  refine ⟨?_, by decide, by decide⟩
  show binanceCanceledFilledOrder.origQty - binanceCanceledFilledOrder.executedQty = 0
  norm_num [binanceCanceledFilledOrder]

/-- C5 as amended: closed-status normalization is driven by the remaining
amount only in the bittrex adapter; the binance and liqui adapters map
closed raw statuses by the status code itself — their executed/filled
status to `filled` and their canceled/expired/rejected/replaced statuses
to `aborted` regardless of the remaining amount — while open/live raw
statuses normalize to `active` in all three. -/
theorem normalizer_status_mapping :
    (∀ (oid : String) (o : BittrexOrder) (pt : Option Int), 0 ≤ o.quantityRemaining →
      (0 < o.closed.length → o.quantityRemaining = 0 →
        (bittrexConvertOrderToExchangeOrder oid o pt).status = orderStatusFilled) ∧
      (0 < o.closed.length → o.quantityRemaining ≠ 0 →
        (bittrexConvertOrderToExchangeOrder oid o pt).status = orderStatusAborted) ∧
      (o.closed.length = 0 →
        (bittrexConvertOrderToExchangeOrder oid o pt).status = orderStatusActive)) ∧
    (∀ (o : BinanceOrder) (f : String → CurrencyPair),
      (o.status = "CANCELED" ∨ o.status = "EXPIRED" ∨ o.status = "REJECTED" ∨
          o.status = "REPLACED" →
        (binanceConvertOrderToExchangeOrder o f).status = orderStatusAborted) ∧
      (o.status = "FILLED" →
        (binanceConvertOrderToExchangeOrder o f).status = orderStatusFilled) ∧
      (o.status = "NEW" ∨ o.status = "PARTIALLY_FILLED" → o.isWorking = true →
        (binanceConvertOrderToExchangeOrder o f).status = orderStatusActive)) ∧
    (∀ (oid : String) (o : LiquiOrderInfo),
      (o.status = 0 → (liquiConvertOrderToExchangeOrder oid o).status = orderStatusActive) ∧
      (o.status = 1 → (liquiConvertOrderToExchangeOrder oid o).status = orderStatusFilled) ∧
      (o.status = 2 ∨ o.status = 3 →
        (liquiConvertOrderToExchangeOrder oid o).status = orderStatusAborted)) := by
  refine ⟨fun oid o pt hnn => ⟨fun hc hz => ?_, fun hc hnz => ?_, fun hopen => ?_⟩,
    fun o f => ⟨fun hs => ?_, fun hs => ?_, fun hs hw => ?_⟩,
    fun oid o => ⟨fun hs => ?_, fun hs => ?_, fun hs => ?_⟩⟩
  · simp [bittrexConvertOrderToExchangeOrder, hc, hz]
  · have hpos : 0 < o.quantityRemaining := lt_of_le_of_ne hnn (Ne.symm hnz)
    simp [bittrexConvertOrderToExchangeOrder, hc, hpos]
  · simp [bittrexConvertOrderToExchangeOrder, hopen]
  · rcases hs with h | h | h | h <;> simp [binanceConvertOrderToExchangeOrder, h]
  · simp [binanceConvertOrderToExchangeOrder, hs]
  · rcases hs with h | h <;> simp [binanceConvertOrderToExchangeOrder, h, hw]
  · simp [liquiConvertOrderToExchangeOrder, hs]
    split <;> rfl
  · simp [liquiConvertOrderToExchangeOrder, hs]
    split <;> rfl
  · rcases hs with h | h <;> simp [liquiConvertOrderToExchangeOrder, h] <;> split <;> rfl

/-- Witness for C5 (amended): the three adapters evaluated on concrete
orders in each covered branch. -/
theorem normalizer_status_mapping_witness :
    (bittrexConvertOrderToExchangeOrder "u"
      ⟨"u", "2017-10-01", 10, 0, 0, 5, "", "BTC-ETH", "LIMIT_BUY"⟩ none).status =
      orderStatusFilled ∧
    (binanceConvertOrderToExchangeOrder binanceCanceledFilledOrder
      (fun _ => ⟨"ETH", "BTC"⟩)).status = orderStatusAborted ∧
    (liquiConvertOrderToExchangeOrder "1" ⟨"eth_btc", "buy", 2, 5, 1, 99, 1⟩).status =
      orderStatusFilled :=
  ⟨(normalizer_status_mapping.1 "u" ⟨"u", "2017-10-01", 10, 0, 0, 5, "", "BTC-ETH", "LIMIT_BUY"⟩
      none (by decide)).1 (by decide) (by decide),
   (normalizer_status_mapping.2.1 binanceCanceledFilledOrder (fun _ => ⟨"ETH", "BTC"⟩)).1
      (Or.inl rfl),
   (normalizer_status_mapping.2.2 "1" ⟨"eth_btc", "buy", 2, 5, 1, 99, 1⟩).2.1 rfl⟩

/-- Concrete bittrex order for the C6 counterexample: its raw type
`MARKET_BUY` is outside the enumerated lookup (`LIMIT_BUY`/`LIMIT_SELL`). -/
def bittrexMarketBuyOrder : BittrexOrder :=
  ⟨"u1", "", 10, 3, 0, 5, "", "BTC-ETH", "MARKET_BUY"⟩

/-- Counterexample to C6 as stated: on a raw order whose type is outside
the enumerated lookup, the bittrex normalizer does not fail — it returns a
canonical order whose side is the zero value `""` (neither buy nor sell);
the unrecognized value is merely logged. -/
theorem bittrex_side_no_error_counterexample :
    (bittrexConvertOrderToExchangeOrder "u1" bittrexMarketBuyOrder none).side = "" ∧
    (bittrexConvertOrderToExchangeOrder "u1" bittrexMarketBuyOrder none).status =
      orderStatusActive ∧
    "" ≠ orderSideBuy ∧ "" ≠ orderSideSell := by
  refine ⟨by decide, by decide, by decide, by decide⟩

/-- C6 as amended: none of the normalizers fails on an unrecognized
side/type.  The bittrex normalizer logs and leaves the side at the Go zero
value; the binance normalizer copies the raw side verbatim (lower-cased)
with no validation at all and leaves the canonical type at the zero value
for non-`LIMIT` raw types; the liqui normalizer passes the raw side word
through unchanged. -/
theorem normalizer_side_defaulting :
    (∀ (oid : String) (o : BittrexOrder) (pt : Option Int),
      o.orderType ≠ "LIMIT_BUY" → o.orderType ≠ "LIMIT_SELL" →
      (bittrexConvertOrderToExchangeOrder oid o pt).side = "") ∧
    (∀ (o : BinanceOrder) (f : String → CurrencyPair),
      (binanceConvertOrderToExchangeOrder o f).side = strLower o.side) ∧
    (∀ (o : BinanceOrder) (f : String → CurrencyPair), o.orderType ≠ "LIMIT" →
      (binanceConvertOrderToExchangeOrder o f).orderType = "") ∧
    (∀ (oid : String) (o : LiquiOrderInfo),
      (liquiConvertOrderToExchangeOrder oid o).side = o.orderType) := by
  refine ⟨fun oid o pt h1 h2 => ?_, fun o f => ?_, fun o f h => ?_, fun oid o => ?_⟩
  · simp [bittrexConvertOrderToExchangeOrder, h1, h2]
  · simp [binanceConvertOrderToExchangeOrder]
  · simp [binanceConvertOrderToExchangeOrder, h]
  · simp only [liquiConvertOrderToExchangeOrder]
    split <;> rfl

/-- Witness for C6 (amended): concrete orders through each conjunct. -/
theorem normalizer_side_defaulting_witness :
    (bittrexConvertOrderToExchangeOrder "u1" bittrexMarketBuyOrder none).side = "" ∧
    (binanceConvertOrderToExchangeOrder binanceCanceledFilledOrder
      (fun _ => ⟨"ETH", "BTC"⟩)).side = strLower "BUY" ∧
    (liquiConvertOrderToExchangeOrder "1" ⟨"eth_btc", "sell", 2, 5, 1, 99, 1⟩).side = "sell" :=
  ⟨normalizer_side_defaulting.1 "u1" bittrexMarketBuyOrder none (by decide) (by decide),
   normalizer_side_defaulting.2.1 binanceCanceledFilledOrder (fun _ => ⟨"ETH", "BTC"⟩),
   normalizer_side_defaulting.2.2.2 "1" ⟨"eth_btc", "sell", 2, 5, 1, 99, 1⟩⟩

/-- C8: the filled amount is derived from exactly one source per exchange:
where the payload reports the remaining amount directly (bittrex, liqui)
it is the exact decimal difference original minus remaining, and where the
payload reports the executed amount directly (binance) that value is used
verbatim (binance instead derives the remaining amount as original minus
executed); no normalizer mixes the two derivations for one order. -/
theorem filled_amount_derivation :
    (∀ (oid : String) (o : BittrexOrder) (pt : Option Int),
      (bittrexConvertOrderToExchangeOrder oid o pt).filledAmount =
        o.quantity - o.quantityRemaining ∧
      (bittrexConvertOrderToExchangeOrder oid o pt).remainingAmount = o.quantityRemaining ∧
      (bittrexConvertOrderToExchangeOrder oid o pt).amount = o.quantity) ∧
    (∀ (o : BinanceOrder) (f : String → CurrencyPair),
      (binanceConvertOrderToExchangeOrder o f).filledAmount = o.executedQty ∧
      (binanceConvertOrderToExchangeOrder o f).remainingAmount =
        o.origQty - o.executedQty ∧
      (binanceConvertOrderToExchangeOrder o f).amount = o.origQty) ∧
    (∀ (oid : String) (o : LiquiOrderInfo), o.startAmount ≠ 0 →
      (liquiConvertOrderToExchangeOrder oid o).filledAmount = o.startAmount - o.amount ∧
      (liquiConvertOrderToExchangeOrder oid o).remainingAmount = o.amount ∧
      (liquiConvertOrderToExchangeOrder oid o).amount = o.startAmount) := by
  refine ⟨fun oid o pt => ⟨rfl, rfl, rfl⟩, fun o f => ⟨rfl, rfl, rfl⟩, fun oid o h => ?_⟩
  simp [liquiConvertOrderToExchangeOrder, h]

/-- Witness for C8: a concrete partially filled liqui order satisfies the
derivation of the third conjunct. -/
theorem filled_amount_derivation_witness :
    (liquiConvertOrderToExchangeOrder "9" ⟨"eth_btc", "buy", 2, 5, 1, 99, 0⟩).filledAmount =
      (5 : ℚ) - 2 ∧
    (liquiConvertOrderToExchangeOrder "9" ⟨"eth_btc", "buy", 2, 5, 1, 99, 0⟩).remainingAmount =
      2 ∧
    (liquiConvertOrderToExchangeOrder "9" ⟨"eth_btc", "buy", 2, 5, 1, 99, 0⟩).amount = 5 :=
  filled_amount_derivation.2.2 "9" ⟨"eth_btc", "buy", 2, 5, 1, 99, 0⟩ (by decide)

/-! ### Claim theorem for poloniex order cancellation -/

/-- Helper: stripping the sign of a digit-led list is the identity. -/
theorem stripSign_digit (c : Char) (rest : List Char) (hc : c.isDigit) :
    stripSign (c :: rest) = (false, c :: rest) := by
  have hcm : c ≠ '-' := by intro e; rw [e] at hc; exact absurd hc (by decide)
  have hcp : c ≠ '+' := by intro e; rw [e] at hc; exact absurd hc (by decide)
  simp [stripSign, hcm, hcp]

/-- Helper: a nonempty all-digit string within the int64 range parses
successfully to its decimal value. -/
theorem parseInt64_digits (s : String) (hne : s.data ≠ [])
    (hdig : ∀ c ∈ s.data, c.isDigit) (hbound : (decimalValue s.data : Int) ≤ 2 ^ 63 - 1) :
    parseInt64 s = ((decimalValue s.data : Int), true) := by
  obtain ⟨c, rest, hcr⟩ : ∃ c rest, s.data = c :: rest := by
    cases h : s.data with
    | nil => exact absurd h hne
    | cons a l => exact ⟨a, l, rfl⟩
  have hstrip : stripSign s.data = (false, s.data) := by
    rw [hcr]
    exact stripSign_digit c rest (hdig c (hcr ▸ List.mem_cons_self c rest))
  have hall : s.data.all Char.isDigit = true := by
    rw [List.all_eq_true]
    intro x hx
    exact hdig x hx
  unfold parseInt64
  rw [hstrip]
  rw [if_neg (by simp [hall, hne])]
  have hv : (if false = true then -(decimalValue s.data : Int)
      else (decimalValue s.data : Int)) = (decimalValue s.data : Int) := by simp
  rw [hv]
  have h0 : (0 : Int) ≤ (decimalValue s.data : Int) := Int.natCast_nonneg _
  unfold parseClamp
  rw [if_neg (by intro hlt; have hcontra := lt_of_le_of_lt h0 hlt; norm_num at hcontra),
    if_neg (not_lt.mpr hbound)]

/-- C10: for every order-id string that parses as a decimal int64 — in
particular every nonempty digit string within range — `Poloniex.CancelOrder`
returns a nil error immediately and never reaches the cancel network call;
the underlying `Poloniex.cancelOrder` request is only sent when the string
fails to parse, and then with the garbage value the failed parse produced. -/
theorem poloniex_cancel_order_noop :
    (∀ s : String, s.data ≠ [] → (∀ c ∈ s.data, c.isDigit) →
      (decimalValue s.data : Int) ≤ 2 ^ 63 - 1 →
      poloniexCancelOrder s = CancelAction.returnedNil) ∧
    (∀ s : String, (parseInt64 s).2 = false →
      poloniexCancelOrder s = CancelAction.sentCancelRequest (parseInt64 s).1) := by
  constructor
  · intro s hne hdig hbound
    unfold poloniexCancelOrder
    rw [parseInt64_digits s hne hdig hbound]
    simp
  · intro s h
    unfold poloniexCancelOrder
    simp [h]

/-- Witness for C10: the well-formed order id `12345` is never cancelled,
while the garbage id `abc` does reach the network call (with value 0). -/
theorem poloniex_cancel_order_noop_witness :
    poloniexCancelOrder "12345" = CancelAction.returnedNil ∧
    poloniexCancelOrder "abc" = CancelAction.sentCancelRequest (parseInt64 "abc").1 :=
  ⟨poloniex_cancel_order_noop.1 "12345" (by decide) (by decide) (by decide),
   poloniex_cancel_order_noop.2 "abc" (by decide)⟩

/-! ### Claim theorems for the order-book store -/

/-- Concrete non-empty snapshot used by the C7 counterexample. -/
def sampleSnapshot : OBBase :=
  ⟨⟨"", ""⟩, "", [⟨1, 2⟩], [⟨3, 4⟩], 0⟩

/-- Counterexample to C7 as stated: after storing a snapshot for
(BTC/USD, SPOT), reading (BTC/USD, margin) — a (pair, market-type) key for
which nothing was ever stored — returns the zero-value empty snapshot with
no error instead of a not-found error, because `GetOrderbook` only checks
the two currency levels of the nested map, not the market-type level. -/
theorem orderbook_markettype_miss_counterexample :
    (orderbooksInit.processOrderbook ⟨"BTC", "USD"⟩ sampleSnapshot "SPOT"
        1500000000).getOrderbook ⟨"BTC", "USD"⟩ "margin" = Except.ok obBaseZero ∧
    obBaseZero.bids = [] ∧ obBaseZero.asks = [] := by
  refine ⟨rfl, rfl, rfl⟩

/-- C7 as amended: a read of a pair for which no snapshot was ever stored
under either currency level returns a not-found error, and a put followed
by a get on the same (pair, market type) returns the stored snapshot (with
the pair string and the timestamp overwritten by the put); but when the
pair exists with some other market type, a get on a never-stored market
type returns the zero-value empty snapshot with no error. -/
theorem orderbook_get_put :
    (∀ (o : Orderbooks) (p : CurrencyPair) (t : String),
      o.orderbooks p.firstCurrency = none →
      o.getOrderbook p t = Except.error errPrimaryCurrencyNotFound) ∧
    (∀ (o : Orderbooks) (p : CurrencyPair) (t : String)
      (m : String → Option (String → Option OBBase)),
      o.orderbooks p.firstCurrency = some m → m p.secondCurrency = none →
      o.getOrderbook p t = Except.error (errSecondaryCurrencyNotFound p)) ∧
    (∀ (o : Orderbooks) (p : CurrencyPair) (ob : OBBase) (t : String) (now : Int),
      (o.processOrderbook p ob t now).getOrderbook p t =
        Except.ok { ob with currencyPairStr := p.pairItem, lastUpdated := now }) ∧
    (∀ (o : Orderbooks) (p : CurrencyPair) (t : String)
      (m : String → Option (String → Option OBBase)) (mt : String → Option OBBase),
      o.orderbooks p.firstCurrency = some m → m p.secondCurrency = some mt →
      mt t = none → o.getOrderbook p t = Except.ok obBaseZero) := by
  refine ⟨fun o p t h1 => ?_, fun o p t m h1 h2 => ?_, fun o p ob t now => ?_,
    fun o p t m mt h1 h2 h3 => ?_⟩
  · simp [Orderbooks.getOrderbook, Orderbooks.firstCurrencyExists, h1]
  · simp [Orderbooks.getOrderbook, Orderbooks.firstCurrencyExists,
      Orderbooks.secondCurrencyExists, h1, h2]
  · unfold Orderbooks.processOrderbook
    cases h1 : o.orderbooks p.firstCurrency with
    | none =>
      simp [Orderbooks.getOrderbook, Orderbooks.firstCurrencyExists,
        Orderbooks.secondCurrencyExists, mapUpd, h1]
    | some m =>
      cases h2 : m p.secondCurrency with
      | none =>
        simp [Orderbooks.getOrderbook, Orderbooks.firstCurrencyExists,
          Orderbooks.secondCurrencyExists, mapUpd, h1, h2]
      | some mt =>
        simp [Orderbooks.getOrderbook, Orderbooks.firstCurrencyExists,
          Orderbooks.secondCurrencyExists, mapUpd, h1, h2]
  · simp [Orderbooks.getOrderbook, Orderbooks.firstCurrencyExists,
      Orderbooks.secondCurrencyExists, h1, h2, h3]

/-- Witness for C7 (amended): the pair-level miss and the put-then-get on
a concrete store. -/
theorem orderbook_get_put_witness :
    orderbooksInit.getOrderbook ⟨"BTC", "USD"⟩ "SPOT" =
      Except.error errPrimaryCurrencyNotFound ∧
    (orderbooksInit.processOrderbook ⟨"BTC", "USD"⟩ sampleSnapshot "SPOT"
        1500000000).getOrderbook ⟨"BTC", "USD"⟩ "SPOT" =
      Except.ok { sampleSnapshot with
        currencyPairStr := (CurrencyPair.mk "BTC" "USD").pairItem
        lastUpdated := 1500000000 } :=
  ⟨orderbook_get_put.1 orderbooksInit ⟨"BTC", "USD"⟩ "SPOT" rfl,
   orderbook_get_put.2.2.1 orderbooksInit ⟨"BTC", "USD"⟩ sampleSnapshot "SPOT" 1500000000⟩

/-! ### Claim theorems for the rate-limited dispatcher -/

/-- Counterexample to C1 as stated: the count-based dispatcher
(`Binance.SendRateLimitedHTTPRequest`, and the identical one in
`bitfinex/bitfinex.go`) performs the network call again for a second
dispatch issued 500 ms after a success (both calls land on Unix second
1000; with quota 60/min the claim requires the second call to be skipped),
and when its per-window count is exhausted (quota 1/min here) the skipped
call returns the fallback with a nil error — with no rate-limited signal
of any kind. -/
theorem binance_dispatch_500ms_counterexample :
    (binanceSendRateLimitedHTTPRequest binanceStateInit 60 "GET/orders" 1000
      (Except.ok (1 : Int)) 0).performedCall = true ∧
    (binanceSendRateLimitedHTTPRequest binanceStateInit 60 "GET/orders" 1000
      (Except.ok (1 : Int)) 0).result = BinanceDispatchResult.fresh 1 ∧
    (binanceSendRateLimitedHTTPRequest
      (binanceSendRateLimitedHTTPRequest binanceStateInit 60 "GET/orders" 1000
        (Except.ok (1 : Int)) 0).state
      60 "GET/orders" 1000 (Except.ok (2 : Int)) 0).performedCall = true ∧
    (binanceSendRateLimitedHTTPRequest
      (binanceSendRateLimitedHTTPRequest binanceStateInit 60 "GET/orders" 1000
        (Except.ok (1 : Int)) 0).state
      60 "GET/orders" 1000 (Except.ok (2 : Int)) 0).result = BinanceDispatchResult.fresh 2 ∧
    (binanceSendRateLimitedHTTPRequest
      (binanceSendRateLimitedHTTPRequest binanceStateInit 1 "GET/orders" 1000
        (Except.ok (1 : Int)) 0).state
      1 "GET/orders" 1000 (Except.ok (2 : Int)) 0).performedCall = false ∧
    (binanceSendRateLimitedHTTPRequest
      (binanceSendRateLimitedHTTPRequest binanceStateInit 1 "GET/orders" 1000
        (Except.ok (1 : Int)) 0).state
      1 "GET/orders" 1000 (Except.ok (2 : Int)) 0).result =
      BinanceDispatchResult.defaultNoError 0 := by
  refine ⟨by decide, by decide, by decide, by decide, by decide, by decide⟩

/-- Step equation of the delay-and-ban dispatcher: skip branch. -/
theorem bitfinex_dispatch_skip {V : Type} (s : BitfinexState) (q : ℕ) (key : String)
    (now : Int) (call : CallOutcome V) (dflt : V)
    (h : (s.ipBanStartTime ≠ 0 ∧ now - s.ipBanStartTime < 60 * 1000) ∨
      now - s.rateLimits key < (((60 * 1000) / q : ℕ) : Int)) :
    bitfinexSendRateLimitedHTTPRequest s q key now call dflt =
      ⟨s, DispatchResult.fallback dflt, false⟩ := by
  unfold bitfinexSendRateLimitedHTTPRequest
  exact if_pos h

/-- Step equation of the delay-and-ban dispatcher: performed branch. -/
theorem bitfinex_dispatch_go {V : Type} (s : BitfinexState) (q : ℕ) (key : String)
    (now : Int) (call : CallOutcome V) (dflt : V)
    (h : ¬ ((s.ipBanStartTime ≠ 0 ∧ now - s.ipBanStartTime < 60 * 1000) ∨
      now - s.rateLimits key < (((60 * 1000) / q : ℕ) : Int))) :
    bitfinexSendRateLimitedHTTPRequest s q key now call dflt =
      match call with
      | CallOutcome.rateLimitError =>
        ⟨⟨s.rateLimits, now⟩, DispatchResult.fallback dflt, true⟩
      | CallOutcome.otherError msg => ⟨s, DispatchResult.failure msg, true⟩
      | CallOutcome.success v =>
        ⟨⟨fun k => if k = key then now else s.rateLimits k, 0⟩, DispatchResult.fresh v, true⟩ := by
  unfold bitfinexSendRateLimitedHTTPRequest
  exact if_neg h

/-- C1 as amended: the delay-and-ban dispatcher (the bitfinex adapter
revision embedded in `binance.go`) has the claimed behavior — after a
dispatch on a key succeeds at time t, a second dispatch on the same key at
any time less than the minimum interval `(60000 / q)` ms later (Go integer
division) does not perform the network call and instead returns the
caller-supplied fallback value with the `RateLimited` signal.  The
count-based dispatchers of the binance adapter and of
`bitfinex/bitfinex.go` do not have it (see the counterexample): they admit
up to q calls per 90-second window and answer an exhausted window with the
fallback and a nil error. -/
theorem bitfinex_dispatch_throttle {V : Type} (s : BitfinexState) (q : ℕ) (key : String)
    (t : Int) (v : V) (dflt : V) (t' : Int) (call' : CallOutcome V) (dflt' : V)
    (hsucc : (bitfinexSendRateLimitedHTTPRequest s q key t (CallOutcome.success v) dflt).result
      = DispatchResult.fresh v)
    (hlt : t' - t < (((60 * 1000) / q : ℕ) : Int)) :
    (bitfinexSendRateLimitedHTTPRequest
        (bitfinexSendRateLimitedHTTPRequest s q key t (CallOutcome.success v) dflt).state
        q key t' call' dflt').performedCall = false ∧
    (bitfinexSendRateLimitedHTTPRequest
        (bitfinexSendRateLimitedHTTPRequest s q key t (CallOutcome.success v) dflt).state
        q key t' call' dflt').result = DispatchResult.fallback dflt' := by
  by_cases hskip : (s.ipBanStartTime ≠ 0 ∧ t - s.ipBanStartTime < 60 * 1000) ∨
      t - s.rateLimits key < (((60 * 1000) / q : ℕ) : Int)
  · rw [bitfinex_dispatch_skip s q key t (CallOutcome.success v) dflt hskip] at hsucc
    exact absurd hsucc (by simp)
  · rw [bitfinex_dispatch_go s q key t (CallOutcome.success v) dflt hskip]
    have hcond : ((⟨fun k => if k = key then t else s.rateLimits k, 0⟩ : BitfinexState).ipBanStartTime
          ≠ 0 ∧ t' - (⟨fun k => if k = key then t else s.rateLimits k,
            0⟩ : BitfinexState).ipBanStartTime < 60 * 1000) ∨
        t' - (⟨fun k => if k = key then t else s.rateLimits k, 0⟩ : BitfinexState).rateLimits key <
          (((60 * 1000) / q : ℕ) : Int) := by
      refine Or.inr ?_
      show t' - (if key = key then t else s.rateLimits key) < _
      rw [if_pos rfl]
      exact hlt
    have hres := bitfinex_dispatch_skip
      (⟨fun k => if k = key then t else s.rateLimits k, 0⟩ : BitfinexState) q key t' call'
      dflt' hcond
    constructor
    · show (bitfinexSendRateLimitedHTTPRequest
        (⟨fun k => if k = key then t else s.rateLimits k, 0⟩ : BitfinexState) q key t' call'
        dflt').performedCall = false
      rw [hres]
    · show (bitfinexSendRateLimitedHTTPRequest
        (⟨fun k => if k = key then t else s.rateLimits k, 0⟩ : BitfinexState) q key t' call'
        dflt').result = DispatchResult.fallback dflt'
      rw [hres]

/-- Witness for C1 (amended): quota 60/min, a success at t = 100000 ms and
a second dispatch 500 ms later is skipped with the fallback and the
rate-limited signal. -/
theorem bitfinex_dispatch_throttle_witness :
    (bitfinexSendRateLimitedHTTPRequest
        (bitfinexSendRateLimitedHTTPRequest bitfinexStateInit 60 "k" 100000
          (CallOutcome.success (5 : Int)) 0).state
        60 "k" 100500 (CallOutcome.success (6 : Int)) 0).performedCall = false ∧
    (bitfinexSendRateLimitedHTTPRequest
        (bitfinexSendRateLimitedHTTPRequest bitfinexStateInit 60 "k" 100000
          (CallOutcome.success (5 : Int)) 0).state
        60 "k" 100500 (CallOutcome.success (6 : Int)) 0).result =
      DispatchResult.fallback 0 :=
  bitfinex_dispatch_throttle bitfinexStateInit 60 "k" 100000 5 0 100500
    (CallOutcome.success 6) 0 (by decide) (by decide)

/-- Under an active ban every dispatch is skipped with the fallback and
the state is unchanged. -/
theorem bitfinex_dispatch_banned {V : Type} (s : BitfinexState) (q : ℕ) (key : String)
    (now : Int) (call : CallOutcome V) (dflt : V)
    (hban : s.ipBanStartTime ≠ 0) (hwin : now - s.ipBanStartTime < 60 * 1000) :
    bitfinexSendRateLimitedHTTPRequest s q key now call dflt =
      ⟨s, DispatchResult.fallback dflt, false⟩ :=
  bitfinex_dispatch_skip s q key now call dflt (Or.inl ⟨hban, hwin⟩)

/-- A run whose call times all fall inside an active ban window leaves the
dispatcher state unchanged and answers every call with the fallback,
without performing any network call. -/
theorem run_banned {V : Type} (s : BitfinexState) (q : ℕ) (key : String) (dflt : V)
    (tb : Int) (hb : s.ipBanStartTime = tb) (htb : tb ≠ 0)
    (calls : List (Int × CallOutcome V))
    (hcalls : ∀ pc ∈ calls, pc.1 - tb < 60 * 1000) :
    runBitfinexDispatches s q key dflt calls =
      (s, calls.map (fun _ => (DispatchResult.fallback dflt, false))) := by
  induction calls with
  | nil => rfl
  | cons pc rest ih =>
    obtain ⟨t, c⟩ := pc
    have h1 := hcalls (t, c) (List.mem_cons_self _ _)
    have hbn : s.ipBanStartTime ≠ 0 := by rw [hb]; exact htb
    have hwin : t - s.ipBanStartTime < 60 * 1000 := by rw [hb]; exact h1
    have hstep := bitfinex_dispatch_banned s q key t c dflt hbn hwin
    simp only [runBitfinexDispatches, hstep]
    rw [ih (fun pc hm => hcalls pc (List.mem_cons_of_mem _ hm))]
    simp

/-- C2: on the delay-and-ban dispatcher, a performed call that comes back
with the provider throttle signal (`ERR_RATE_LIMIT` token or HTTP 429)
starts a ban and itself returns the fallback with the rate-limited
signal; every subsequent dispatch on the key whose time falls within the
60-second ban window is skipped, returning the fallback without a network
call and leaving the state unchanged, and the first dispatch at or after
the end of the ban window performs the network call again. -/
theorem bitfinex_dispatch_ban {V : Type} (s : BitfinexState) (q : ℕ) (key : String)
    (tb : Int) (dflt : V) (calls : List (Int × CallOutcome V)) (tN : Int)
    (callN : CallOutcome V) (dfltN : V)
    (hperf : (bitfinexSendRateLimitedHTTPRequest s q key tb
      CallOutcome.rateLimitError dflt).performedCall = true)
    (htb : tb ≠ 0)
    (hcalls : ∀ pc ∈ calls, pc.1 - tb < 60 * 1000)
    (hN : tb + 60 * 1000 ≤ tN) :
    (bitfinexSendRateLimitedHTTPRequest s q key tb CallOutcome.rateLimitError dflt).result
      = DispatchResult.fallback dflt ∧
    (runBitfinexDispatches
        (bitfinexSendRateLimitedHTTPRequest s q key tb CallOutcome.rateLimitError dflt).state
        q key dflt calls).2 =
      calls.map (fun _ => (DispatchResult.fallback dflt, false)) ∧
    (bitfinexSendRateLimitedHTTPRequest
        (runBitfinexDispatches
          (bitfinexSendRateLimitedHTTPRequest s q key tb CallOutcome.rateLimitError dflt).state
          q key dflt calls).1
        q key tN callN dfltN).performedCall = true := by
  by_cases hskip : (s.ipBanStartTime ≠ 0 ∧ tb - s.ipBanStartTime < 60 * 1000) ∨
      tb - s.rateLimits key < (((60 * 1000) / q : ℕ) : Int)
  · rw [bitfinex_dispatch_skip s q key tb CallOutcome.rateLimitError dflt hskip] at hperf
    exact absurd hperf (by simp)
  · have hdel : (((60 * 1000) / q : ℕ) : Int) ≤ tb - s.rateLimits key :=
      le_of_not_lt (not_or.mp hskip).2
    rw [bitfinex_dispatch_go s q key tb CallOutcome.rateLimitError dflt hskip]
    have hrun := run_banned (⟨s.rateLimits, tb⟩ : BitfinexState) q key dflt tb rfl htb
      calls hcalls
    refine ⟨rfl, ?_, ?_⟩
    · show (runBitfinexDispatches (⟨s.rateLimits, tb⟩ : BitfinexState) q key dflt calls).2 = _
      rw [hrun]
    · show (bitfinexSendRateLimitedHTTPRequest
        (runBitfinexDispatches (⟨s.rateLimits, tb⟩ : BitfinexState) q key dflt calls).1
        q key tN callN dfltN).performedCall = true
      rw [hrun]
      have hnoskip : ¬ (((⟨s.rateLimits, tb⟩ : BitfinexState).ipBanStartTime ≠ 0 ∧
          tN - (⟨s.rateLimits, tb⟩ : BitfinexState).ipBanStartTime < 60 * 1000) ∨
          tN - (⟨s.rateLimits, tb⟩ : BitfinexState).rateLimits key <
            (((60 * 1000) / q : ℕ) : Int)) := by
        refine not_or.mpr ⟨fun hA => ?_, not_lt.mpr ?_⟩
        · exact absurd hA.2 (not_lt.mpr (by linarith))
        · show (((60 * 1000) / q : ℕ) : Int) ≤ tN - s.rateLimits key
          linarith
      rw [bitfinex_dispatch_go _ q key tN callN dfltN hnoskip]
      cases callN <;> rfl

/-- Witness for C2: a concrete ban scenario with quota 60/min — the
throttle signal at t = 100000 ms bans the key; calls at 110000 and 150000
ms are skipped with the fallback; the call at 160001 ms (past the
60-second window) performs the network call again. -/
theorem bitfinex_dispatch_ban_witness :
    (bitfinexSendRateLimitedHTTPRequest bitfinexStateInit 60 "k" 100000
      CallOutcome.rateLimitError (0 : Int)).result = DispatchResult.fallback 0 ∧
    (runBitfinexDispatches
        (bitfinexSendRateLimitedHTTPRequest bitfinexStateInit 60 "k" 100000
          CallOutcome.rateLimitError (0 : Int)).state
        60 "k" (0 : Int) [(110000, CallOutcome.success 5), (150000, CallOutcome.otherError "boom")]).2 =
      [(110000, (CallOutcome.success (5 : Int))),
        (150000, CallOutcome.otherError "boom")].map
        (fun _ => (DispatchResult.fallback 0, false)) ∧
    (bitfinexSendRateLimitedHTTPRequest
        (runBitfinexDispatches
          (bitfinexSendRateLimitedHTTPRequest bitfinexStateInit 60 "k" 100000
            CallOutcome.rateLimitError (0 : Int)).state
          60 "k" (0 : Int) [(110000, CallOutcome.success 5),
            (150000, CallOutcome.otherError "boom")]).1
        60 "k" 160001 (CallOutcome.success 9) 0).performedCall = true :=
  bitfinex_dispatch_ban bitfinexStateInit 60 "k" 100000 (0 : Int)
    [(110000, CallOutcome.success 5), (150000, CallOutcome.otherError "boom")]
    160001 (CallOutcome.success 9) 0 (by decide) (by decide) (by decide) (by decide)

end Cryptofiend
